import Mathlib

/-!
Verification development for the RealToken YAM offer viewer.

This file gives a shallow embedding of the core of the repository
(the cache API route in `src/pages/api/token/index.ts` and the main page
component that follows it in the same file) and proves or refutes the
properties claimed by the specification.

Modelling conventions:
* JavaScript numbers are modelled exactly as rationals extended with the
  IEEE special values Infinity, -Infinity and NaN (`JSNum`); rounding of
  binary floating point is abstracted away, but the zero / nonzero and
  special-value structure that the claims are about is preserved.
* `ethers.BigNumber` values are modelled as `Nat`; `BigNumber.div` throws
  on a zero divisor, which is modelled with `Option`.
* `undefined` fields are modelled with `Option`.
* Asynchronous single-flight behaviour of the in-memory token cache is
  modelled as a labelled transition system whose atomic steps are the
  synchronous segments of the JavaScript event loop.
-/

namespace YamViewer

/-! ## JavaScript number domain -/

/-- A JavaScript `number`, modelled as an exact rational together with the
IEEE-754 special values. -/
inductive JSNum where
  | num (q : ℚ)
  | inf
  | negInf
  | nan
deriving DecidableEq, Repr

/-- JavaScript division, including the IEEE special-value rules:
division of a nonzero finite value by zero gives a signed infinity,
`0 / 0` gives NaN, and NaN propagates. -/
def jsDiv : JSNum → JSNum → JSNum
  | .nan, _ => .nan
  | _, .nan => .nan
  | .num x, .num y =>
      if y = 0 then (if x = 0 then .nan else if 0 < x then .inf else .negInf)
      else .num (x / y)
  | .inf, .num y => if 0 ≤ y then .inf else .negInf
  | .negInf, .num y => if 0 ≤ y then .negInf else .inf
  | .num _, .inf => .num 0
  | .num _, .negInf => .num 0
  | .inf, .inf => .nan
  | .inf, .negInf => .nan
  | .negInf, .inf => .nan
  | .negInf, .negInf => .nan

/-- JavaScript multiplication on the extended number domain. -/
def jsMul : JSNum → JSNum → JSNum
  | .nan, _ => .nan
  | _, .nan => .nan
  | .num x, .num y => .num (x * y)
  | .inf, .num y => if y = 0 then .nan else if 0 < y then .inf else .negInf
  | .num x, .inf => if x = 0 then .nan else if 0 < x then .inf else .negInf
  | .negInf, .num y => if y = 0 then .nan else if 0 < y then .negInf else .inf
  | .num x, .negInf => if x = 0 then .nan else if 0 < x then .negInf else .inf
  | .inf, .inf => .inf
  | .inf, .negInf => .negInf
  | .negInf, .inf => .negInf
  | .negInf, .negInf => .inf

/-- JavaScript subtraction on the extended number domain. -/
def jsSub : JSNum → JSNum → JSNum
  | .nan, _ => .nan
  | _, .nan => .nan
  | .num x, .num y => .num (x - y)
  | .inf, .num _ => .inf
  | .negInf, .num _ => .negInf
  | .num _, .inf => .negInf
  | .num _, .negInf => .inf
  | .inf, .inf => .nan
  | .negInf, .negInf => .nan
  | .inf, .negInf => .inf
  | .negInf, .inf => .negInf

/-- An optional field used in JavaScript arithmetic: a missing value
(`undefined`) behaves as NaN. -/
def jsOfOpt : Option ℚ → JSNum
  | some q => .num q
  | none => .nan

/-! ## Backend cache API route (`handler` in `src/pages/api/token/index.ts`)

The route reads a durable JSON cache file, refreshes it from the community
registry when it is older than 24 hours (or when `refresh=true`), serves the
stale file when the refresh fails, and serves an explicit empty payload with
an error marker when the registry is unreachable and no cache exists. -/

/-- The minimal token record stored in the cache file (`CachedToken`). -/
structure CachedToken where
  tokenAddress : String
  shortName : Option String
  fullName : Option String
  tokenPrice : Option ℚ
  netRentYear : Option ℚ
  imageLink : Option (List String)
  marketplaceLink : Option String
  totalTokens : Option ℚ
  rentStartDate : Option String
deriving DecidableEq, Repr

/-- The durable cache record (`CacheFile`): a timestamp in epoch millis and
tokens keyed by lowercase address. -/
structure CacheFile where
  lastUpdated : Nat
  tokens : List (String × CachedToken)
deriving DecidableEq, Repr

/-- `CACHE_MAX_AGE_MS = 24 * 60 * 60 * 1000`. -/
def CACHE_MAX_AGE_MS : Nat := 24 * 60 * 60 * 1000

/-- `isCacheValid` on a present cache file: its age is below 24 hours. -/
def isCacheValid (now : Nat) (c : CacheFile) : Bool :=
  now - c.lastUpdated < CACHE_MAX_AGE_MS

/-- The JSON body the route answers with: a cache payload (timestamp,
tokens, optional error marker) or the 405 error object. -/
inductive RespBody where
  | payload (lastUpdated : Nat) (tokens : List (String × CachedToken)) (error : Option String)
  | methodNotAllowed
deriving DecidableEq, Repr

/-- The observable outcome of one request: HTTP status, body, and the cache
file on disk after the request. -/
structure HandlerResult where
  status : Nat
  body : RespBody
  persisted : Option CacheFile
deriving DecidableEq, Repr

/-- Shallow embedding of the API route `handler`.

`cache0` is the result of `readCache()` (`none` for a missing or corrupt
file, since `readCache` swallows all read errors), `fetchResult` the outcome
of `fetchAllTokens()` (an exception becomes `.error`), and `now` the clock.

The source first returns a valid cache unless `refresh=true`; otherwise it
refreshes, writing the new file on success, answering with the stale cache
on failure when one exists, and otherwise falling to the outer catch which
re-reads the (still absent) cache and answers 200 with an empty token map
and the error marker. A `none` cache is never valid, so the two paths are
merged below by first matching on `cache0`. -/
def handler (method : String) (cache0 : Option CacheFile) (forceRefresh : Bool)
    (fetchResult : Except String (List (String × CachedToken))) (now : Nat) :
    HandlerResult :=
  if method ≠ "GET" then ⟨405, .methodNotAllowed, cache0⟩
  else
    match cache0 with
    | some c =>
        if isCacheValid now c && !forceRefresh then
          ⟨200, .payload c.lastUpdated c.tokens none, some c⟩
        else
          match fetchResult with
          | .ok tokens => ⟨200, .payload now tokens none, some ⟨now, tokens⟩⟩
          | .error _ => ⟨200, .payload c.lastUpdated c.tokens none, some c⟩
    | none =>
        match fetchResult with
        | .ok tokens => ⟨200, .payload now tokens none, some ⟨now, tokens⟩⟩
        | .error _ =>
            ⟨200, .payload now [] (some "Cache temporarily unavailable"), none⟩

/-- Looking a token address up in a response body, as the client does. -/
def lookupToken (b : RespBody) (addr : String) : Option CachedToken :=
  match b with
  | .payload _ tokens _ => tokens.lookup addr
  | .methodNotAllowed => none

/-! ## Maximum purchasable amount (`handleSetMaxAmount` in the page)

The handler scales the raw balance by `10 ^ PRECISION`, divides by the price
expressed at the same precision (`BigNumber` integer division, which throws
on a zero divisor), and takes the minimum with the offer amount at the same
precision. -/

/-- The fixed-point precision constant of `handleSetMaxAmount`. -/
def PRECISION : Nat := 6

/-- `ethers.BigNumber.div`: integer division, throwing on a zero divisor. -/
def bnDiv (a b : Nat) : Option Nat :=
  if b = 0 then none else some (a / b)

/-- Shallow embedding of `handleSetMaxAmount`: `balance` is the raw
pay-token balance, `price6` and `amount6` are `parseUnits(offer.price, 6)`
and `parseUnits(offer.amount, 6)`. Returns the amount put into the input
field (at precision 6), or `none` when the computation throws. -/
def handleSetMaxAmount (balance price6 amount6 : Nat) : Option Nat :=
  let balanceScaled := balance * 10 ^ PRECISION
  match bnDiv balanceScaled price6 with
  | none => none
  | some maxAmountFromBalance => some (min maxAmountFromBalance amount6)

/-! ## Client token cache single flight (`RealTokenAPI` in the page)

`RealTokenAPI` keeps a module-level cache map, a freshness timestamp with a
24 hour TTL, and a shared in-flight promise. Its cache-ensuring routine
returns immediately when the timestamp is fresh, returns the existing
in-flight promise when one exists, and otherwise starts a refresh, storing
its promise; the refresh replaces the snapshot, stamps the time (also on
failure, to avoid retry loops) and finally clears the stored promise.

The transition system below has one atomic step per synchronous segment of
that code. `snapshot` is an abstract generation of the cache contents;
`fresh` states that the timestamp is set and within the TTL (the claim is
about calls within one TTL window, so no step ever makes a fresh timestamp
stale again); `inflight` states that the shared promise is non-null;
`fetches` counts started upstream fetches. -/

/-- The progress of one concurrent caller of the cache-ensuring routine. -/
inductive CallerSt where
  | notStarted
  | waiting
  | done (obs : Nat)
deriving DecidableEq, Repr

/-- Global state of the client cache and its concurrent callers. -/
structure CacheSys where
  fresh : Bool
  snapshot : Nat
  inflight : Bool
  fetches : Nat
  callers : List CallerSt
deriving DecidableEq, Repr

/-- Initial state for `n` concurrent callers and a stale (or empty) cache. -/
def cacheInitState (n : Nat) : CacheSys :=
  ⟨false, 0, false, 0, List.replicate n .notStarted⟩

/-- One atomic step of the client cache system.

* `fastPath`: a caller finds the timestamp fresh and returns at once,
  observing the current snapshot.
* `startRefresh`: a caller finds the timestamp stale and no promise stored;
  it synchronously creates the promise (issuing the upstream fetch) and
  stores it, then suspends.
* `joinRefresh`: a caller finds a stored promise and awaits it.
* `complete`: the in-flight refresh finishes (success replaces the
  snapshot; failure keeps it, both stamp the timestamp) and clears the
  stored promise, resolving it.
* `resume`: a caller whose awaited promise has resolved returns, observing
  the current snapshot. -/
inductive CacheStep : CacheSys → CacheSys → Prop where
  | fastPath (s : CacheSys) (i : Nat)
      (hi : s.callers.get? i = some .notStarted) (hf : s.fresh = true) :
      CacheStep s { s with callers := s.callers.set i (.done s.snapshot) }
  | startRefresh (s : CacheSys) (i : Nat)
      (hi : s.callers.get? i = some .notStarted)
      (hf : s.fresh = false) (hl : s.inflight = false) :
      CacheStep s { s with callers := s.callers.set i .waiting,
                           inflight := true, fetches := s.fetches + 1 }
  | joinRefresh (s : CacheSys) (i : Nat)
      (hi : s.callers.get? i = some .notStarted)
      (hf : s.fresh = false) (hl : s.inflight = true) :
      CacheStep s { s with callers := s.callers.set i .waiting }
  | complete (s : CacheSys) (v : Nat) (hl : s.inflight = true) :
      CacheStep s { s with snapshot := v, fresh := true, inflight := false }
  | resume (s : CacheSys) (i : Nat)
      (hi : s.callers.get? i = some .waiting) (hl : s.inflight = false) :
      CacheStep s { s with callers := s.callers.set i (.done s.snapshot) }

/-- Reachability: finitely many steps. -/
def CacheReach : CacheSys → CacheSys → Prop := Relation.ReflTransGen CacheStep

/-- The inductive invariant of the client cache system for `n` callers:
the caller list keeps its length; a fresh timestamp excludes an in-flight
refresh; the fetch counter is exactly one inside or after a refresh and
zero before; a waiting caller implies a refresh is or was in flight; a
finished caller has seen the final snapshot, which no longer changes. -/
def CacheInv (n : Nat) (s : CacheSys) : Prop :=
  s.callers.length = n ∧
  (s.fresh = true → s.inflight = false) ∧
  (s.fetches = if s.inflight || s.fresh then 1 else 0) ∧
  (CallerSt.waiting ∈ s.callers → s.inflight = true ∨ s.fresh = true) ∧
  (∀ v, CallerSt.done v ∈ s.callers → s.fresh = true ∧ s.snapshot = v)

theorem cacheInv_init (n : Nat) : CacheInv n (cacheInitState n) := by
  refine ⟨List.length_replicate .., by simp [cacheInitState], by simp [cacheInitState], ?_, ?_⟩
  · intro h
    exact absurd (List.eq_of_mem_replicate h) (by simp)
  · intro v h
    exact absurd (List.eq_of_mem_replicate h) (by simp)

theorem cacheInv_step {n : Nat} {s t : CacheSys}
    (hinv : CacheInv n s) (hst : CacheStep s t) : CacheInv n t := by
  obtain ⟨hlen, hfi, hcount, hwait, hdone⟩ := hinv
  cases hst with
  | fastPath i hi hf =>
      refine ⟨by simpa using hlen, hfi, hcount, ?_, ?_⟩
      · intro hw
        rcases List.mem_or_eq_of_mem_set hw with h | h
        · exact hwait h
        · exact absurd h (by simp)
      · intro v hv
        rcases List.mem_or_eq_of_mem_set hv with h | h
        · exact hdone v h
        · cases h; exact ⟨hf, rfl⟩
  | startRefresh i hi hf hl =>
      refine ⟨by simpa using hlen, by simp [hf], ?_, by simp, ?_⟩
      · rw [hf, hl] at hcount
        simpa using hcount
      · intro v hv
        rcases List.mem_or_eq_of_mem_set hv with h | h
        · exact absurd (hdone v h).1 (by simp [hf])
        · exact absurd h (by simp)
  | joinRefresh i hi hf hl =>
      refine ⟨by simpa using hlen, hfi, hcount, by simp [hl], ?_⟩
      intro v hv
      rcases List.mem_or_eq_of_mem_set hv with h | h
      · exact absurd (hdone v h).1 (by simp [hf])
      · exact absurd h (by simp)
  | complete v hl =>
      have hnf : s.fresh = false := by
        cases hsf : s.fresh with
        | true => exact absurd (hfi hsf) (by simp [hl])
        | false => rfl
      refine ⟨hlen, by simp, ?_, by simp, ?_⟩
      · rw [hl] at hcount
        simpa using hcount
      · intro w hw
        exact absurd (hdone w hw).1 (by simp [hnf])
  | resume i hi hl =>
      have hmem : CallerSt.waiting ∈ s.callers := List.get?_mem hi
      have hf : s.fresh = true := by
        rcases hwait hmem with h | h
        · exact absurd h (by simp [hl])
        · exact h
      refine ⟨by simpa using hlen, hfi, hcount, ?_, ?_⟩
      · intro hw
        rcases List.mem_or_eq_of_mem_set hw with h | h
        · exact hwait h
        · exact absurd h (by simp)
      · intro v hv
        rcases List.mem_or_eq_of_mem_set hv with h | h
        · exact hdone v h
        · cases h; exact ⟨hf, rfl⟩

theorem cacheInv_reach {n : Nat} {s : CacheSys}
    (hr : CacheReach (cacheInitState n) s) : CacheInv n s := by
  induction hr with
  | refl => exact cacheInv_init n
  | tail _ hstep ih => exact cacheInv_step ih hstep

/-! ## RPC offer fetch (`fetchOfferRpc` in the page) -/

/-- ERC-20 metadata obtained through the fallback reads. -/
structure Erc20Meta where
  name : Option String
  symbol : Option String
deriving DecidableEq, Repr

/-- The raw offer assembled by `fetchOfferRpc` (`YamOffer`). -/
structure YamOfferM where
  offerId : String
  buyerTokenAddress : String
  offerTokenAddress : String
  buyerAddress : String
  price : Nat
  amount : Nat
  createdAt : Nat
  removedAt : Option Nat
  offerTokenDecimals : Option Nat
  buyerTokenDecimals : Option Nat
deriving DecidableEq, Repr

/-- The 6-tuple returned by `showOffer`: `[token0, token1, seller, buyer,
price, amount]`; absent slots are modelled with `Option`. -/
structure ShowOfferTuple where
  token0 : Option String
  token1 : Option String
  seller : Option String
  buyer : Option String
  price : Option Nat
  amount : Option Nat
deriving DecidableEq, Repr

/-- `getDecimals` applied to the outcome of a `decimals()` call: the value
on success, 18 on any failure. -/
def getDecimals (call : Except String Nat) : Nat :=
  match call with
  | .ok d => d
  | .error _ => 18

/-- Decimals resolution for an optional token address: absent addresses
resolve to 18 without a call, present ones through `getDecimals`. -/
def resolveDecimals (addr : Option String) (decCall : String → Except String Nat) : Nat :=
  match addr with
  | none => 18
  | some a => getDecimals (decCall a)

/-- Shallow embedding of `fetchOfferRpc`.

`offerId` is the parsed numeric id (`none` for a non-finite parse),
`offerCount` the outcome of the optional `getOfferCount()` bounds check
(a failure is non-fatal), `showOffer` the outcome of the `showOffer` call
and `decCall` the per-address outcome of the ERC-20 `decimals()` calls.
Returns `none` where the source returns `null`. -/
def fetchOfferRpc (offerId : Option Int) (offerCount : Except String Nat)
    (showOffer : Except String ShowOfferTuple)
    (decCall : String → Except String Nat) : Option YamOfferM :=
  match offerId with
  | none => none
  | some idNum =>
      if idNum < 0 then none
      else
        let inBounds :=
          match offerCount with
          | .ok cnt => decide (idNum < cnt)
          | .error _ => true
        if !inBounds then none
        else
          match showOffer with
          | .error _ => none
          | .ok t =>
              some
                { offerId := toString idNum
                  buyerTokenAddress := t.token1.getD ""
                  offerTokenAddress := t.token0.getD ""
                  buyerAddress := t.seller.getD ""
                  price := t.price.getD 0
                  amount := t.amount.getD 0
                  createdAt := 0
                  removedAt := none
                  offerTokenDecimals := some (resolveDecimals t.token0 decCall)
                  buyerTokenDecimals := some (resolveDecimals t.token1 decCall) }

/-! ## Offer enrichment (`combineOfferData` and helpers in the page) -/

/-- A stablecoin table entry. -/
structure StableMeta where
  symbol : String
  decimals : Nat
  name : Option String
deriving DecidableEq, Repr

/-- `STABLE_TOKENS.gnosis` (the Ethereum table is empty, and
`getChainFromOffer` always answers gnosis). -/
def STABLE_TOKENS_gnosis : List (String × StableMeta) :=
  [("0xe91d153e0b41518a2ce8dd3d7944fa863463a97d", ⟨"WXDAI", 18, some "Wrapped xDAI"⟩),
   ("0xddafbb505ad214d7b80b1f830fccc89b60fb7a83", ⟨"USDC", 6, none⟩),
   ("0x0ca4f5554dd9da6217d62d8df2816c82bba4157b", ⟨"armmv3WXDAI", 18, none⟩),
   ("0xed56f76e9cbc6a64b821e9c016eafbd3db5436d1", ⟨"armmv3USDC", 6, none⟩)]

/-- JavaScript `toLowerCase` on the ASCII addresses in play, written as a
structural per-character map so that it evaluates. -/
def toLowerStr (s : String) : String := String.mk (s.data.map Char.toLower)

/-- `getStableMeta` for the gnosis chain: an empty (falsy) address yields
nothing, otherwise the lowercased address is looked up in the table. -/
def getStableMeta (tokenAddress : String) : Option StableMeta :=
  if tokenAddress = "" then none
  else STABLE_TOKENS_gnosis.lookup (toLowerStr tokenAddress)

/-- JavaScript `a || b` on optional strings: an absent or empty left operand
falls through to the right one. -/
def strOr (a b : Option String) : Option String :=
  match a with
  | some s => if s = "" then b else some s
  | none => b

/-- `RealTokenAPI.getTokenDetails` against a given cache snapshot, keyed by
lowercase address. -/
def getTokenDetails (registry : List (String × CachedToken)) (addr : String) :
    Option CachedToken :=
  registry.lookup (toLowerStr addr)

/-- The registry details used for the sold token: a known stablecoin
short-circuits the registry lookup to nothing. -/
def offerTokenDetails (y : YamOfferM) (registry : List (String × CachedToken)) :
    Option CachedToken :=
  if (getStableMeta y.offerTokenAddress).isSome then none
  else getTokenDetails registry y.offerTokenAddress

/-- `getStatusFromOffer`: cancelled when a removal timestamp is present,
sold when the remaining raw amount parses to zero, otherwise active. -/
inductive OfferStatus where
  | active
  | sold
  | cancelled
deriving DecidableEq, Repr

def getStatusFromOffer (y : YamOfferM) : OfferStatus :=
  if y.removedAt.isSome then .cancelled
  else if y.amount = 0 then .sold
  else .active

/-- The enriched display offer (`Offer`). String formatting of the numeric
fields (`toFixed`) is abstracted away: the fields keep the computed numeric
values, and `createdAt` keeps the epoch-millis value whose ISO rendering
the source displays. -/
structure OfferM where
  id : String
  price : ℚ
  reversePrice : JSNum
  amount : ℚ
  seller : String
  status : OfferStatus
  createdAt : Nat
  chain : String
  tokenDetails : Option CachedToken
  offerAddress : String
  offerDecimals : Nat
  offerSymbol : String
  buyerAddress : String
  buyerDecimals : Nat
  buyerSymbol : Option String
  officialPriceUsd : ℚ
  priceDiff : ℚ
  priceDiffPct : Option ℚ
  offerYieldPct : Option JSNum
  officialYieldPct : Option JSNum
  offerYieldDiff : Option JSNum
  offerYieldDiffPct : Option JSNum
deriving DecidableEq, Repr

/-- Shallow embedding of `combineOfferData`.

`registry` is the client token cache snapshot, `erc20` the outcome of the
ERC-20 `name()/symbol()` fallback reads per address, `now` the wall clock in
epoch millis (used only when the raw offer carries no creation timestamp,
which is always the case for offers built by `fetchOfferRpc`). -/
def combineOfferData (y : YamOfferM) (registry : List (String × CachedToken))
    (erc20 : String → Erc20Meta) (now : Nat) : OfferM :=
  let tokenDetails := offerTokenDetails y registry
  let exchangeStableMeta := getStableMeta y.buyerTokenAddress
  let exchangeMeta : Erc20Meta :=
    match exchangeStableMeta with
    | some m => ⟨m.name, some m.symbol⟩
    | none => if y.buyerTokenAddress = "" then ⟨none, none⟩ else erc20 y.buyerTokenAddress
  let offerTokenDec := y.offerTokenDecimals.getD 18
  let buyerTokenDec := y.buyerTokenDecimals.getD 18
  let priceNum : ℚ := (y.price : ℚ) / 10 ^ buyerTokenDec
  let amountNum : ℚ := (y.amount : ℚ) / 10 ^ offerTokenDec
  let reversePriceNum : JSNum := jsDiv (.num 1) (.num priceNum)
  let officialPriceUsd : ℚ :=
    match tokenDetails with
    | none => 1
    | some td =>
        match td.tokenPrice with
        | none => 1
        | some p => if p = 0 then 1 else p
  let priceDiff : ℚ := priceNum - officialPriceUsd
  let priceDiffPct : Option ℚ :=
    if 0 < officialPriceUsd then some (priceDiff / officialPriceUsd * 100) else none
  let officialYieldPct : Option JSNum :=
    match tokenDetails with
    | some td =>
        match td.netRentYear with
        | some r =>
            if 0 < officialPriceUsd then
              some (jsMul (jsDiv (jsDiv (.num r) (jsOfOpt td.totalTokens))
                (.num officialPriceUsd)) (.num 100))
            else none
        | none => none
    | none => none
  let offerYieldPct : Option JSNum :=
    match tokenDetails with
    | some td =>
        match td.netRentYear with
        | some r =>
            if 0 < priceNum then
              some (jsMul (jsDiv (jsDiv (.num r) (jsOfOpt td.totalTokens))
                (.num priceNum)) (.num 100))
            else none
        | none => none
    | none => none
  let offerYieldDiff : Option JSNum :=
    match offerYieldPct with
    | some oy => some (jsSub oy (officialYieldPct.getD (.num 0)))
    | none => none
  let offerYieldDiffPct : Option JSNum :=
    match officialYieldPct, offerYieldDiff with
    | some offc, some d => some (jsMul (jsDiv d offc) (.num 100))
    | _, _ => none
  let offerSymbol : String :=
    match strOr (tokenDetails.bind (·.shortName)) (tokenDetails.bind (·.fullName)) with
    | some s => s
    | none =>
        match getStableMeta y.offerTokenAddress with
        | some sm => (strOr sm.name (some sm.symbol)).getD sm.symbol
        | none =>
            let m := erc20 y.offerTokenAddress
            (strOr m.name (strOr m.symbol (some "Unknown property"))).getD "Unknown property"
  { id := y.offerId
    price := priceNum
    reversePrice := reversePriceNum
    amount := amountNum
    seller := y.buyerAddress
    status := getStatusFromOffer y
    createdAt := if y.createdAt ≠ 0 then y.createdAt * 1000 else now
    chain := "gnosis"
    tokenDetails := tokenDetails
    offerAddress := y.offerTokenAddress
    offerDecimals := offerTokenDec
    offerSymbol := offerSymbol
    buyerAddress := y.buyerTokenAddress
    buyerDecimals := buyerTokenDec
    buyerSymbol := exchangeMeta.symbol
    officialPriceUsd := officialPriceUsd
    priceDiff := priceDiff
    priceDiffPct := priceDiffPct
    offerYieldPct := offerYieldPct
    officialYieldPct := officialYieldPct
    offerYieldDiff := offerYieldDiff
    offerYieldDiffPct := offerYieldDiffPct }

/-- The enriched offer with its `createdAt` field blanked, to compare
enrichments performed at different wall-clock times. -/
def eraseCreatedAt (o : OfferM) : OfferM :=
  { o with createdAt := 0 }

/-! ## Purchase modal (`Home` component state and buttons)

The modal holds the transaction status, the approval flag, the amount input
and the allowance and balance reads. The amount input, the Cancel button
and the Approve and Buy buttons carry `disabled` conditions taken verbatim
from the JSX; the Max button carries none. A click on a disabled control
fires no handler, so it leaves the state unchanged. -/

inductive TxStatus where
  | idle
  | pending
  | success
  | error
deriving DecidableEq, Repr

/-- The price and amount of the loaded offer, as the 6-decimal fixed-point
integers `parseUnits(offer.price, 6)` and `parseUnits(offer.amount, 6)`. -/
structure OfferLite where
  price6 : Nat
  amount6 : Nat
deriving DecidableEq, Repr

/-- The state of the buy modal. `buyAmount` is the content of the amount
input as a 6-decimal fixed-point integer (the granularity the Max shortcut
writes). -/
structure ModalState where
  txStatus : TxStatus
  isApproving : Bool
  isAllowanceLoading : Bool
  needsApproval : Bool
  buyAmount : Nat
  offer : Option OfferLite
  balance : Nat
  showBuyModal : Bool
deriving DecidableEq, Repr

/-- A user gesture on the modal. -/
inductive UserAction where
  | editAmount (v : Nat)
  | clickMax
  | clickApprove
  | clickBuy
  | clickCancel
deriving DecidableEq, Repr

/-- `disabled` of the amount input. -/
def inputDisabled (s : ModalState) : Bool :=
  s.txStatus = TxStatus.pending || s.isApproving

/-- `disabled` of the Cancel button. -/
def cancelDisabled (s : ModalState) : Bool :=
  s.isApproving || s.txStatus = TxStatus.pending

/-- `disabled` of the Approve button. -/
def approveDisabled (s : ModalState) : Bool :=
  s.isApproving || s.txStatus = TxStatus.pending || s.isAllowanceLoading ||
    s.buyAmount = 0

/-- `disabled` of the Buy button. -/
def buyDisabled (s : ModalState) : Bool :=
  s.buyAmount = 0 || s.isApproving || s.txStatus = TxStatus.pending ||
    s.needsApproval

/-- One user-triggered transition of the modal. A disabled control does
nothing. The Max button has no `disabled` attribute, so its handler always
runs; the handler returns early without an offer, returns without writing
when the fixed-point division throws, and otherwise writes the computed
maximum into the amount input. Approve and Buy record only the synchronous
prefix of their handlers (entering the pending state). -/
def uiStep (s : ModalState) (a : UserAction) : ModalState :=
  match a with
  | .editAmount v => if inputDisabled s then s else { s with buyAmount := v }
  | .clickMax =>
      match s.offer with
      | none => s
      | some o =>
          match handleSetMaxAmount s.balance o.price6 o.amount6 with
          | some m => { s with buyAmount := m }
          | none => s
  | .clickApprove =>
      if approveDisabled s then s
      else { s with isApproving := true, txStatus := .pending }
  | .clickBuy =>
      if buyDisabled s then s
      else { s with txStatus := .pending }
  | .clickCancel =>
      if cancelDisabled s then s
      else { s with showBuyModal := false }

/-! ## Named forms of the enrichment fields

These definitions repeat the bodies of the corresponding `let` bindings of
`combineOfferData`, so each projection lemma below holds definitionally. -/

/-- `priceDisplay`: the raw price scaled down by the pay-token decimals. -/
def priceNumOf (y : YamOfferM) : ℚ := (y.price : ℚ) / 10 ^ y.buyerTokenDecimals.getD 18

/-- The reference USD price, with the `tokenPrice || 1` falsy fallback. -/
def officialPriceUsdOf (y : YamOfferM) (registry : List (String × CachedToken)) : ℚ :=
  match offerTokenDetails y registry with
  | none => 1
  | some td =>
      match td.tokenPrice with
      | none => 1
      | some p => if p = 0 then 1 else p

/-- The official yield percentage with its guards as written in the page. -/
def officialYieldPctOf (y : YamOfferM) (registry : List (String × CachedToken)) :
    Option JSNum :=
  match offerTokenDetails y registry with
  | some td =>
      match td.netRentYear with
      | some r =>
          if 0 < officialPriceUsdOf y registry then
            some (jsMul (jsDiv (jsDiv (.num r) (jsOfOpt td.totalTokens))
              (.num (officialPriceUsdOf y registry))) (.num 100))
          else none
      | none => none
  | none => none

/-- The offer yield percentage with its guards as written in the page. -/
def offerYieldPctOf (y : YamOfferM) (registry : List (String × CachedToken)) :
    Option JSNum :=
  match offerTokenDetails y registry with
  | some td =>
      match td.netRentYear with
      | some r =>
          if 0 < priceNumOf y then
            some (jsMul (jsDiv (jsDiv (.num r) (jsOfOpt td.totalTokens))
              (.num (priceNumOf y))) (.num 100))
          else none
      | none => none
  | none => none

/-- The yield difference with its guard as written in the page. -/
def offerYieldDiffOf (y : YamOfferM) (registry : List (String × CachedToken)) :
    Option JSNum :=
  match offerYieldPctOf y registry with
  | some oy => some (jsSub oy ((officialYieldPctOf y registry).getD (.num 0)))
  | none => none

/-- The relative yield difference with its guard as written in the page. -/
def offerYieldDiffPctOf (y : YamOfferM) (registry : List (String × CachedToken)) :
    Option JSNum :=
  match officialYieldPctOf y registry, offerYieldDiffOf y registry with
  | some offc, some d => some (jsMul (jsDiv d offc) (.num 100))
  | _, _ => none

theorem combine_price_eq (y : YamOfferM) (registry : List (String × CachedToken))
    (erc20 : String → Erc20Meta) (now : Nat) :
    (combineOfferData y registry erc20 now).price = priceNumOf y := rfl

theorem combine_reversePrice_eq (y : YamOfferM) (registry : List (String × CachedToken))
    (erc20 : String → Erc20Meta) (now : Nat) :
    (combineOfferData y registry erc20 now).reversePrice
      = jsDiv (.num 1) (.num (priceNumOf y)) := rfl

theorem combine_officialPriceUsd_eq (y : YamOfferM) (registry : List (String × CachedToken))
    (erc20 : String → Erc20Meta) (now : Nat) :
    (combineOfferData y registry erc20 now).officialPriceUsd
      = officialPriceUsdOf y registry := rfl

theorem combine_priceDiff_eq (y : YamOfferM) (registry : List (String × CachedToken))
    (erc20 : String → Erc20Meta) (now : Nat) :
    (combineOfferData y registry erc20 now).priceDiff
      = priceNumOf y - officialPriceUsdOf y registry := rfl

theorem combine_priceDiffPct_eq (y : YamOfferM) (registry : List (String × CachedToken))
    (erc20 : String → Erc20Meta) (now : Nat) :
    (combineOfferData y registry erc20 now).priceDiffPct
      = if 0 < officialPriceUsdOf y registry then
          some ((priceNumOf y - officialPriceUsdOf y registry)
            / officialPriceUsdOf y registry * 100)
        else none := rfl

theorem combine_officialYieldPct_eq (y : YamOfferM) (registry : List (String × CachedToken))
    (erc20 : String → Erc20Meta) (now : Nat) :
    (combineOfferData y registry erc20 now).officialYieldPct
      = officialYieldPctOf y registry := rfl

theorem combine_offerYieldPct_eq (y : YamOfferM) (registry : List (String × CachedToken))
    (erc20 : String → Erc20Meta) (now : Nat) :
    (combineOfferData y registry erc20 now).offerYieldPct
      = offerYieldPctOf y registry := rfl

theorem combine_offerYieldDiff_eq (y : YamOfferM) (registry : List (String × CachedToken))
    (erc20 : String → Erc20Meta) (now : Nat) :
    (combineOfferData y registry erc20 now).offerYieldDiff
      = offerYieldDiffOf y registry := rfl

theorem combine_offerYieldDiffPct_eq (y : YamOfferM) (registry : List (String × CachedToken))
    (erc20 : String → Erc20Meta) (now : Nat) :
    (combineOfferData y registry erc20 now).offerYieldDiffPct
      = offerYieldDiffPctOf y registry := rfl

theorem combine_createdAt_eq (y : YamOfferM) (registry : List (String × CachedToken))
    (erc20 : String → Erc20Meta) (now : Nat) :
    (combineOfferData y registry erc20 now).createdAt
      = if y.createdAt ≠ 0 then y.createdAt * 1000 else now := rfl

/-! ## Claims -/

/-- C2: the maximum-purchasable-amount computation of `handleSetMaxAmount`
is monotone in the balance and bounded by the offer amount: for balances
`b1 ≤ b2` at the same price and remaining amount, the computed maxima
satisfy `m1 ≤ m2`, and both never exceed the offer's remaining amount
(all at the fixed precision `10 ^ PRECISION`, with integer division). -/
theorem handleSetMaxAmount_monotone_bounded
    (price6 amount6 b1 b2 m1 m2 : Nat) (hb : b1 ≤ b2)
    (h1 : handleSetMaxAmount b1 price6 amount6 = some m1)
    (h2 : handleSetMaxAmount b2 price6 amount6 = some m2) :
    m1 ≤ m2 ∧ m1 ≤ amount6 ∧ m2 ≤ amount6 := by
  have hp : price6 ≠ 0 := by
    intro h
    rw [h] at h1
    simp [handleSetMaxAmount, bnDiv] at h1
  simp only [handleSetMaxAmount, bnDiv, hp, if_false, ite_false, Option.some_inj] at h1 h2
  rw [← h1, ← h2]
  refine ⟨?_, min_le_right _ _, min_le_right _ _⟩
  exact min_le_min (Nat.div_le_div_right (Nat.mul_le_mul_right _ hb)) le_rfl

/-- Witness for C2 at balance 1.0 and 3.0 pay tokens (6 decimals), price
2.0, remaining amount 5.0. -/
theorem handleSetMaxAmount_monotone_bounded_witness :
    handleSetMaxAmount 1000000 2000000 5000000 = some 500000 ∧
    handleSetMaxAmount 3000000 2000000 5000000 = some 1500000 ∧
    (500000 ≤ 1500000 ∧ 500000 ≤ 5000000 ∧ 1500000 ≤ 5000000) :=
  ⟨by decide, by decide,
    handleSetMaxAmount_monotone_bounded 2000000 5000000 1000000 3000000 500000 1500000
      (by decide) (by decide) (by decide)⟩

/-- C3: when the upstream registry fetch fails and a prior cache snapshot
exists, the route answers with exactly the prior snapshot (token lookups
give the prior values) and the persisted file, with its `lastUpdated`
timestamp, is unchanged: no cache write happens on a failed refresh. -/
theorem handler_staleServe (c : CacheFile) (forceRefresh : Bool) (e : String) (now : Nat) :
    handler "GET" (some c) forceRefresh (.error e) now =
      ⟨200, .payload c.lastUpdated c.tokens none, some c⟩ ∧
    ∀ a, lookupToken (handler "GET" (some c) forceRefresh (.error e) now).body a =
      c.tokens.lookup a := by
  have heq : handler "GET" (some c) forceRefresh (.error e) now =
      ⟨200, .payload c.lastUpdated c.tokens none, some c⟩ := by
    unfold handler
    by_cases h : (isCacheValid now c && !forceRefresh) = true <;> simp [h]
  exact ⟨heq, fun a => by rw [heq]; rfl⟩

/-- C9: the cache service route answers HTTP 200 to every GET request; in
particular, when the registry is unreachable and no prior cache exists it
answers 200 with an empty token map and an explicit error marker in the
body, never a non-2xx status. -/
theorem handler_get_always_200 (cache0 : Option CacheFile) (forceRefresh : Bool)
    (fetchResult : Except String (List (String × CachedToken))) (now : Nat) :
    (handler "GET" cache0 forceRefresh fetchResult now).status = 200 ∧
    (cache0 = none → ∀ e, fetchResult = .error e →
      handler "GET" cache0 forceRefresh fetchResult now =
        ⟨200, .payload now [] (some "Cache temporarily unavailable"), none⟩) := by
  refine ⟨?_, ?_⟩
  · cases cache0 with
    | none => cases fetchResult <;> simp [handler]
    | some c =>
        by_cases h : (isCacheValid now c && !forceRefresh) = true
        · simp [handler, h]
        · cases fetchResult <;> simp [handler, h]
  · rintro rfl e rfl
    simp [handler]

/-- Witness for C9: registry down, no cache on disk. -/
theorem handler_get_always_200_witness :
    (handler "GET" none false (.error "registry down") 0).status = 200 ∧
    handler "GET" none false (.error "registry down") 0 =
      ⟨200, .payload 0 [] (some "Cache temporarily unavailable"), none⟩ :=
  ⟨(handler_get_always_200 none false (.error "registry down") 0).1,
   (handler_get_always_200 none false (.error "registry down") 0).2 rfl "registry down" rfl⟩

/-- C8: decimals resolution answers 18 whenever the ERC-20 `decimals()`
call fails or the token address is absent, and the decimals outcome never
decides whether the overall offer fetch succeeds. -/
theorem decimals_default_18 (offerId : Option Int) (offerCount : Except String Nat)
    (showOffer : Except String ShowOfferTuple)
    (decCall otherDecCall : String → Except String Nat) :
    (∀ a e, decCall a = .error e → resolveDecimals (some a) decCall = 18) ∧
    resolveDecimals none decCall = 18 ∧
    (fetchOfferRpc offerId offerCount showOffer decCall).isSome =
      (fetchOfferRpc offerId offerCount showOffer otherDecCall).isSome := by
  refine ⟨?_, rfl, ?_⟩
  · intro a e h
    simp [resolveDecimals, getDecimals, h]
  · cases offerId with
    | none => rfl
    | some idNum =>
        simp only [fetchOfferRpc]
        split
        · rfl
        · split
          · rfl
          · cases showOffer <;> rfl

/-- Witness for C8: failing `decimals()` calls against a successful
`showOffer`, compared with ones that answer 6. -/
theorem decimals_default_18_witness :
    resolveDecimals (some "0xaaa") (fun _ => Except.error "rpc error") = 18 ∧
    resolveDecimals none (fun _ => (Except.error "rpc error" : Except String Nat)) = 18 ∧
    (fetchOfferRpc (some 0) (.error "no count")
        (.ok ⟨some "0xaaa", some "0xbbb", some "0xseller", none, some 5, some 7⟩)
        (fun _ => .error "rpc error")).isSome =
      (fetchOfferRpc (some 0) (.error "no count")
        (.ok ⟨some "0xaaa", some "0xbbb", some "0xseller", none, some 5, some 7⟩)
        (fun _ => .ok 6)).isSome := by
  obtain ⟨h1, h2, h3⟩ := decimals_default_18 (some 0) (.error "no count")
    (.ok ⟨some "0xaaa", some "0xbbb", some "0xseller", none, some 5, some 7⟩)
    (fun _ => .error "rpc error") (fun _ => .ok 6)
  exact ⟨h1 "0xaaa" "rpc error" rfl, h2, h3⟩

/-- C1: for every `n ≥ 1`, in every interleaving of `n` concurrent callers
of the cache-ensuring routine started against a stale cache within one TTL
window, at most one upstream fetch is ever started (at most one refresh in
flight per process), and once all callers have returned, exactly one
upstream fetch has happened and every caller has observed the same
resulting snapshot. -/
theorem ensureFresh_single_flight (n : Nat) (hn : 1 ≤ n) (s : CacheSys)
    (hr : CacheReach (cacheInitState n) s) :
    s.fetches ≤ 1 ∧
    ((∀ c ∈ s.callers, ∃ v, c = CallerSt.done v) →
      s.fetches = 1 ∧ ∀ c ∈ s.callers, c = CallerSt.done s.snapshot) := by
  obtain ⟨hlen, hfi, hcount, hwait, hdone⟩ := cacheInv_reach hr
  constructor
  · rw [hcount]
    split <;> omega
  · intro hall
    have hne : s.callers ≠ [] := by
      intro h0
      rw [h0] at hlen
      simp at hlen
      omega
    obtain ⟨c0, hc0⟩ := List.exists_mem_of_ne_nil _ hne
    obtain ⟨v0, hv0⟩ := hall c0 hc0
    have hfresh : s.fresh = true := (hdone v0 (hv0 ▸ hc0)).1
    refine ⟨by rw [hcount, hfresh]; simp, ?_⟩
    intro c hc
    obtain ⟨v, hv⟩ := hall c hc
    have hcv := hdone v (hv ▸ hc)
    rw [hv, hcv.2]

/-- Witness for C1: one caller, a full trace (start refresh, complete with
snapshot 7, resume), ending with one fetch and agreement on snapshot 7. -/
theorem ensureFresh_single_flight_witness :
    (⟨true, 7, false, 1, [CallerSt.done 7]⟩ : CacheSys).fetches = 1 ∧
    ∀ c ∈ (⟨true, 7, false, 1, [CallerSt.done 7]⟩ : CacheSys).callers,
      c = CallerSt.done (⟨true, 7, false, 1, [CallerSt.done 7]⟩ : CacheSys).snapshot := by
  have h1 : CacheStep (cacheInitState 1) ⟨false, 0, true, 1, [CallerSt.waiting]⟩ :=
    CacheStep.startRefresh (cacheInitState 1) 0 rfl rfl rfl
  have h2 : CacheStep ⟨false, 0, true, 1, [CallerSt.waiting]⟩
      ⟨true, 7, false, 1, [CallerSt.waiting]⟩ :=
    CacheStep.complete _ 7 rfl
  have h3 : CacheStep ⟨true, 7, false, 1, [CallerSt.waiting]⟩
      ⟨true, 7, false, 1, [CallerSt.done 7]⟩ :=
    CacheStep.resume _ 0 rfl rfl
  have hr : CacheReach (cacheInitState 1) ⟨true, 7, false, 1, [CallerSt.done 7]⟩ :=
    Relation.ReflTransGen.tail
      (Relation.ReflTransGen.tail (Relation.ReflTransGen.tail Relation.ReflTransGen.refl h1) h2) h3
  refine (ensureFresh_single_flight 1 (by decide) _ hr).2 ?_
  intro c hc
  exact ⟨7, List.mem_singleton.mp hc⟩

/-- C10: when the sold token has no registry metadata, or its registry
`tokenPrice` is missing or zero, enrichment sets `officialPriceUsd` to the
fabricated reference 1, and the price deviation figures are computed
against that 1 USD reference rather than being left undefined. -/
theorem officialPriceUsd_fallback_one (y : YamOfferM)
    (registry : List (String × CachedToken)) (erc20 : String → Erc20Meta) (now : Nat)
    (h : offerTokenDetails y registry = none ∨
      ∃ td, offerTokenDetails y registry = some td ∧
        (td.tokenPrice = none ∨ td.tokenPrice = some 0)) :
    (combineOfferData y registry erc20 now).officialPriceUsd = 1 ∧
    (combineOfferData y registry erc20 now).priceDiff
      = (combineOfferData y registry erc20 now).price - 1 ∧
    (combineOfferData y registry erc20 now).priceDiffPct
      = some ((combineOfferData y registry erc20 now).priceDiff * 100) := by
  have hofficial : officialPriceUsdOf y registry = 1 := by
    rcases h with h | ⟨td, htd, hp | hp⟩
    · simp [officialPriceUsdOf, h]
    · simp [officialPriceUsdOf, htd, hp]
    · simp [officialPriceUsdOf, htd, hp]
  rw [combine_officialPriceUsd_eq, combine_priceDiff_eq, combine_priceDiffPct_eq,
    combine_price_eq, hofficial]
  norm_num

/-- Witness for C10: a sold token absent from the registry snapshot. -/
theorem officialPriceUsd_fallback_one_witness :
    (combineOfferData ⟨"1", "0xbbb", "0xaaa", "0xseller", 3000000, 2000000, 0, none,
        some 6, some 6⟩ [] (fun _ => ⟨none, none⟩) 0).officialPriceUsd = 1 ∧
    (combineOfferData ⟨"1", "0xbbb", "0xaaa", "0xseller", 3000000, 2000000, 0, none,
        some 6, some 6⟩ [] (fun _ => ⟨none, none⟩) 0).priceDiff
      = (combineOfferData ⟨"1", "0xbbb", "0xaaa", "0xseller", 3000000, 2000000, 0, none,
          some 6, some 6⟩ [] (fun _ => ⟨none, none⟩) 0).price - 1 ∧
    (combineOfferData ⟨"1", "0xbbb", "0xaaa", "0xseller", 3000000, 2000000, 0, none,
        some 6, some 6⟩ [] (fun _ => ⟨none, none⟩) 0).priceDiffPct
      = some ((combineOfferData ⟨"1", "0xbbb", "0xaaa", "0xseller", 3000000, 2000000, 0,
          none, some 6, some 6⟩ [] (fun _ => ⟨none, none⟩) 0).priceDiff * 100) :=
  officialPriceUsd_fallback_one
    ⟨"1", "0xbbb", "0xaaa", "0xseller", 3000000, 2000000, 0, none, some 6, some 6⟩
    [] (fun _ => ⟨none, none⟩) 0 (Or.inl rfl)

/-- C4 counterexample: at a raw offer whose price is zero (6-decimal pay
token, raw price 0), `priceDisplay` is 0 and the enrichment sets
`reversePrice` to Infinity through the unguarded `1 / priceDisplay`; the
claim instead requires the division to be guarded so that `reversePrice`
stays undefined. -/
theorem reversePrice_unguarded_cex :
    (combineOfferData ⟨"1", "0xbbb", "0xaaa", "0xseller", 0, 2000000, 0, none,
        some 6, some 6⟩ [] (fun _ => ⟨none, none⟩) 0).price = 0 ∧
    (combineOfferData ⟨"1", "0xbbb", "0xaaa", "0xseller", 0, 2000000, 0, none,
        some 6, some 6⟩ [] (fun _ => ⟨none, none⟩) 0).reversePrice = JSNum.inf := by
  rw [combine_price_eq, combine_reversePrice_eq]
  norm_num [priceNumOf, jsDiv]

/-- C4 amended: `reversePrice = 1 / priceDisplay` is computed with no
divide-by-zero guard: when `priceDisplay` is zero the value is Infinity
(IEEE division), and otherwise the exact reciprocal; it is never left
undefined. -/
theorem reversePrice_amended (y : YamOfferM) (registry : List (String × CachedToken))
    (erc20 : String → Erc20Meta) (now : Nat) :
    (combineOfferData y registry erc20 now).reversePrice
      = jsDiv (.num 1) (.num ((combineOfferData y registry erc20 now).price)) ∧
    ((combineOfferData y registry erc20 now).price = 0 →
      (combineOfferData y registry erc20 now).reversePrice = JSNum.inf) ∧
    (∀ p : ℚ, (combineOfferData y registry erc20 now).price = p → p ≠ 0 →
      (combineOfferData y registry erc20 now).reversePrice = JSNum.num (1 / p)) := by
  rw [combine_reversePrice_eq, combine_price_eq]
  refine ⟨rfl, ?_, ?_⟩
  · intro h
    rw [h]
    norm_num [jsDiv]
  · intro p hp hne
    rw [hp]
    simp [jsDiv, hne]

/-- Witness for C4 amended, at the zero-price offer. -/
theorem reversePrice_amended_witness :
    (combineOfferData ⟨"2", "0xbbb", "0xccc", "0xseller", 0, 2000000, 0, none,
        some 6, some 6⟩ [] (fun _ => ⟨none, none⟩) 0).reversePrice = JSNum.inf :=
  (reversePrice_amended ⟨"2", "0xbbb", "0xccc", "0xseller", 0, 2000000, 0, none,
      some 6, some 6⟩ [] (fun _ => ⟨none, none⟩) 0).2.1
    (by rw [combine_price_eq]; norm_num [priceNumOf])

/-- A registry token with rent and price present but a zero total supply:
the divisor the yield guards fail to check. -/
def zeroSupplyToken : CachedToken :=
  ⟨"0xAAA", some "TOK-1", none, some 50, some 10, none, none, some 0, none⟩

/-- A registry snapshot carrying `zeroSupplyToken` at its lowercase key. -/
def zeroSupplyRegistry : List (String × CachedToken) := [("0xaaa", zeroSupplyToken)]

/-- An offer selling `0xaaa` (2.0 units of a 6-decimal pay token each). -/
def zeroSupplyOffer : YamOfferM :=
  ⟨"1", "0xbbb", "0xaaa", "0xseller", 2000000, 3000000, 0, none, some 6, some 6⟩

/-- C5 counterexample: for a registry token whose `netRentYear` is 10 and
`tokenPrice` 50 but whose `totalTokens` is 0, the yield guards pass and the
unguarded division by the total supply makes both yields Infinity and both
yield deviations NaN, instead of the explicit undefined value the claim
requires whenever a divisor is zero. -/
theorem yield_totalTokens_unguarded_cex :
    zeroSupplyToken.totalTokens = some 0 ∧
    (combineOfferData zeroSupplyOffer zeroSupplyRegistry
        (fun _ => ⟨none, none⟩) 0).officialYieldPct = some JSNum.inf ∧
    (combineOfferData zeroSupplyOffer zeroSupplyRegistry
        (fun _ => ⟨none, none⟩) 0).offerYieldPct = some JSNum.inf ∧
    (combineOfferData zeroSupplyOffer zeroSupplyRegistry
        (fun _ => ⟨none, none⟩) 0).offerYieldDiff = some JSNum.nan ∧
    (combineOfferData zeroSupplyOffer zeroSupplyRegistry
        (fun _ => ⟨none, none⟩) 0).offerYieldDiffPct = some JSNum.nan := by
  have htd : offerTokenDetails zeroSupplyOffer zeroSupplyRegistry = some zeroSupplyToken := rfl
  have hP : officialPriceUsdOf zeroSupplyOffer zeroSupplyRegistry = 50 := by
    norm_num [officialPriceUsdOf, htd, zeroSupplyToken]
  have hpn : priceNumOf zeroSupplyOffer = 2 := by
    norm_num [priceNumOf, zeroSupplyOffer]
  have hOff : officialYieldPctOf zeroSupplyOffer zeroSupplyRegistry = some JSNum.inf := by
    norm_num [officialYieldPctOf, htd, zeroSupplyToken, hP, jsOfOpt, jsDiv, jsMul]
  have hOffer : offerYieldPctOf zeroSupplyOffer zeroSupplyRegistry = some JSNum.inf := by
    norm_num [offerYieldPctOf, htd, zeroSupplyToken, hpn, jsOfOpt, jsDiv, jsMul]
  have hDiff : offerYieldDiffOf zeroSupplyOffer zeroSupplyRegistry = some JSNum.nan := by
    simp [offerYieldDiffOf, hOff, hOffer, jsSub]
  have hDiffPct : offerYieldDiffPctOf zeroSupplyOffer zeroSupplyRegistry = some JSNum.nan := by
    simp [offerYieldDiffPctOf, hOff, hDiff, jsDiv, jsMul]
  rw [combine_officialYieldPct_eq, combine_offerYieldPct_eq, combine_offerYieldDiff_eq,
    combine_offerYieldDiffPct_eq, hOff, hOffer, hDiff, hDiffPct]
  exact ⟨rfl, rfl, rfl, rfl, rfl⟩

/-- C5 amended: the yield guards do make every yield figure undefined when
`netRentYear` is missing (or the token has no registry details), and when
rent, total supply, display price and reference price are all positive all
four yield figures are finite numbers; but the `totalTokens` divisor itself
is unguarded (a zero or missing total supply leaks Infinity or NaN, as the
counterexample shows), as is a zero official yield in the relative
deviation. -/
theorem yield_guards_amended (y : YamOfferM) (registry : List (String × CachedToken))
    (erc20 : String → Erc20Meta) (now : Nat) :
    ((offerTokenDetails y registry).bind (fun td => td.netRentYear) = none →
      (combineOfferData y registry erc20 now).officialYieldPct = none ∧
      (combineOfferData y registry erc20 now).offerYieldPct = none ∧
      (combineOfferData y registry erc20 now).offerYieldDiff = none ∧
      (combineOfferData y registry erc20 now).offerYieldDiffPct = none) ∧
    (∀ td r t, offerTokenDetails y registry = some td →
      td.netRentYear = some r → td.totalTokens = some t →
      0 < r → 0 < t → 0 < priceNumOf y → 0 < officialPriceUsdOf y registry →
      (∃ q1, (combineOfferData y registry erc20 now).officialYieldPct = some (JSNum.num q1)) ∧
      (∃ q2, (combineOfferData y registry erc20 now).offerYieldPct = some (JSNum.num q2)) ∧
      (∃ q3, (combineOfferData y registry erc20 now).offerYieldDiff = some (JSNum.num q3)) ∧
      (∃ q4, (combineOfferData y registry erc20 now).offerYieldDiffPct
        = some (JSNum.num q4))) := by
  constructor
  · intro h
    have hOff : officialYieldPctOf y registry = none := by
      cases hc : offerTokenDetails y registry with
      | none => simp [officialYieldPctOf, hc]
      | some td =>
          rw [hc] at h
          simp only [Option.some_bind] at h
          simp [officialYieldPctOf, hc, h]
    have hOffer : offerYieldPctOf y registry = none := by
      cases hc : offerTokenDetails y registry with
      | none => simp [offerYieldPctOf, hc]
      | some td =>
          rw [hc] at h
          simp only [Option.some_bind] at h
          simp [offerYieldPctOf, hc, h]
    have hDiff : offerYieldDiffOf y registry = none := by
      simp [offerYieldDiffOf, hOffer]
    have hDiffPct : offerYieldDiffPctOf y registry = none := by
      simp [offerYieldDiffPctOf, hOff]
    rw [combine_officialYieldPct_eq, combine_offerYieldPct_eq, combine_offerYieldDiff_eq,
      combine_offerYieldDiffPct_eq, hOff, hOffer, hDiff, hDiffPct]
    exact ⟨rfl, rfl, rfl, rfl⟩
  · intro td r t htd hr ht hrpos htpos hppos hPpos
    have ht2 : t ≠ 0 := ne_of_gt htpos
    have hp2 : priceNumOf y ≠ 0 := ne_of_gt hppos
    have hP2 : officialPriceUsdOf y registry ≠ 0 := ne_of_gt hPpos
    have hOffEq : officialYieldPctOf y registry
        = some (.num (r / t / officialPriceUsdOf y registry * 100)) := by
      simp [officialYieldPctOf, htd, hr, ht, jsOfOpt, jsDiv, jsMul, ht2, hP2, hPpos]
    have hOfferEq : offerYieldPctOf y registry
        = some (.num (r / t / priceNumOf y * 100)) := by
      simp [offerYieldPctOf, htd, hr, ht, jsOfOpt, jsDiv, jsMul, ht2, hp2, hppos]
    have hDiffEq : offerYieldDiffOf y registry
        = some (.num (r / t / priceNumOf y * 100
            - r / t / officialPriceUsdOf y registry * 100)) := by
      simp [offerYieldDiffOf, hOfferEq, hOffEq, jsSub]
    have hOffNe : r / t / officialPriceUsdOf y registry * 100 ≠ 0 := by
      have hpos : 0 < r / t / officialPriceUsdOf y registry * 100 := by positivity
      exact ne_of_gt hpos
    have hDiffPctEq : offerYieldDiffPctOf y registry
        = some (.num ((r / t / priceNumOf y * 100
              - r / t / officialPriceUsdOf y registry * 100)
            / (r / t / officialPriceUsdOf y registry * 100) * 100)) := by
      simp [offerYieldDiffPctOf, hOffEq, hDiffEq, jsDiv, jsMul, hOffNe]
    rw [combine_officialYieldPct_eq, combine_offerYieldPct_eq, combine_offerYieldDiff_eq,
      combine_offerYieldDiffPct_eq, hOffEq, hOfferEq, hDiffEq, hDiffPctEq]
    exact ⟨⟨_, rfl⟩, ⟨_, rfl⟩, ⟨_, rfl⟩, ⟨_, rfl⟩⟩

/-- Like `zeroSupplyToken` but with a positive total supply of 500. -/
def posSupplyToken : CachedToken :=
  ⟨"0xAAA", some "TOK-1", none, some 50, some 10, none, none, some 500, none⟩

/-- A registry snapshot carrying `posSupplyToken` at its lowercase key. -/
def posSupplyRegistry : List (String × CachedToken) := [("0xaaa", posSupplyToken)]

/-- Witness for C5 amended: an offer with no registry details has every
yield undefined, and the fully positive token yields finite figures. -/
theorem yield_guards_amended_witness :
    ((combineOfferData ⟨"3", "0xbbb", "0xddd", "0xseller", 2000000, 3000000, 0, none,
          some 6, some 6⟩ [] (fun _ => ⟨none, none⟩) 0).officialYieldPct = none ∧
      (combineOfferData ⟨"3", "0xbbb", "0xddd", "0xseller", 2000000, 3000000, 0, none,
          some 6, some 6⟩ [] (fun _ => ⟨none, none⟩) 0).offerYieldPct = none ∧
      (combineOfferData ⟨"3", "0xbbb", "0xddd", "0xseller", 2000000, 3000000, 0, none,
          some 6, some 6⟩ [] (fun _ => ⟨none, none⟩) 0).offerYieldDiff = none ∧
      (combineOfferData ⟨"3", "0xbbb", "0xddd", "0xseller", 2000000, 3000000, 0, none,
          some 6, some 6⟩ [] (fun _ => ⟨none, none⟩) 0).offerYieldDiffPct = none) ∧
    ((∃ q1, (combineOfferData zeroSupplyOffer posSupplyRegistry
        (fun _ => ⟨none, none⟩) 0).officialYieldPct = some (JSNum.num q1)) ∧
      (∃ q2, (combineOfferData zeroSupplyOffer posSupplyRegistry
        (fun _ => ⟨none, none⟩) 0).offerYieldPct = some (JSNum.num q2)) ∧
      (∃ q3, (combineOfferData zeroSupplyOffer posSupplyRegistry
        (fun _ => ⟨none, none⟩) 0).offerYieldDiff = some (JSNum.num q3)) ∧
      (∃ q4, (combineOfferData zeroSupplyOffer posSupplyRegistry
        (fun _ => ⟨none, none⟩) 0).offerYieldDiffPct = some (JSNum.num q4))) := by
  constructor
  · exact (yield_guards_amended ⟨"3", "0xbbb", "0xddd", "0xseller", 2000000, 3000000, 0,
      none, some 6, some 6⟩ [] (fun _ => ⟨none, none⟩) 0).1 rfl
  · have htd : offerTokenDetails zeroSupplyOffer posSupplyRegistry = some posSupplyToken := rfl
    exact (yield_guards_amended zeroSupplyOffer posSupplyRegistry
        (fun _ => ⟨none, none⟩) 0).2 posSupplyToken 10 500 htd rfl rfl
      (by norm_num) (by norm_num)
      (by norm_num [priceNumOf, zeroSupplyOffer])
      (by norm_num [officialPriceUsdOf, htd, posSupplyToken])

/-- C6 counterexample: offers fetched over RPC always carry the sentinel
creation timestamp 0, which enrichment replaces with the wall clock, so
enriching the same raw offer against the same registry snapshot at two
different times yields different `createdAt` fields; enrichment is not
deterministic in every field. -/
theorem enrichment_not_deterministic_cex :
    combineOfferData ⟨"1", "0xbbb", "0xaaa", "0xseller", 2000000, 3000000, 0, none,
        some 6, some 6⟩ [] (fun _ => ⟨none, none⟩) 1000 ≠
      combineOfferData ⟨"1", "0xbbb", "0xaaa", "0xseller", 2000000, 3000000, 0, none,
        some 6, some 6⟩ [] (fun _ => ⟨none, none⟩) 2000 := by
  intro h
  have h2 := congrArg OfferM.createdAt h
  rw [combine_createdAt_eq, combine_createdAt_eq] at h2
  simp at h2

/-- C6 amended: enrichment is deterministic in every field except
`createdAt`: with the same raw offer, registry snapshot and ERC-20
metadata, enrichments at any two wall-clock times agree once `createdAt`
is erased (and `createdAt` itself differs only for the sentinel raw
timestamp 0, where it is set to the enrichment time). -/
theorem enrichment_deterministic_modulo_createdAt (y : YamOfferM)
    (registry : List (String × CachedToken)) (erc20 : String → Erc20Meta) (n1 n2 : Nat) :
    eraseCreatedAt (combineOfferData y registry erc20 n1)
      = eraseCreatedAt (combineOfferData y registry erc20 n2) := rfl

/-- C7 counterexample: in the modal with a pending transaction
(`txStatus = 'pending'`), the Max shortcut is not disabled: clicking it
runs its handler and changes the purchase amount, contradicting the claim
that every user-triggered transition including the Max shortcut is
rejected or disabled while a transaction is pending. -/
theorem pending_max_shortcut_cex :
    (⟨TxStatus.pending, false, false, false, 0, some ⟨2000000, 5000000⟩, 1000000, true⟩ :
        ModalState).txStatus = TxStatus.pending ∧
    uiStep ⟨TxStatus.pending, false, false, false, 0, some ⟨2000000, 5000000⟩, 1000000, true⟩
        UserAction.clickMax ≠
      ⟨TxStatus.pending, false, false, false, 0, some ⟨2000000, 5000000⟩, 1000000, true⟩ := by
  exact ⟨rfl, by decide⟩

/-- C7 amended: while a transaction is pending or an approval is running,
the amount input, the Approve button, the Buy button and the Cancel button
are all disabled (their transitions are rejected); only the Max shortcut
remains enabled and can still edit the amount. -/
theorem pending_disables_all_but_max (s : ModalState) (v : Nat)
    (h : s.txStatus = TxStatus.pending ∨ s.isApproving = true) :
    uiStep s (.editAmount v) = s ∧ uiStep s .clickApprove = s ∧
    uiStep s .clickBuy = s ∧ uiStep s .clickCancel = s := by
  have hi : inputDisabled s = true := by
    rcases h with h | h <;> simp [inputDisabled, h]
  have ha : approveDisabled s = true := by
    rcases h with h | h <;> simp [approveDisabled, h]
  have hb : buyDisabled s = true := by
    rcases h with h | h <;> simp [buyDisabled, h]
  have hc : cancelDisabled s = true := by
    rcases h with h | h <;> simp [cancelDisabled, h]
  exact ⟨by simp [uiStep, hi], by simp [uiStep, ha], by simp [uiStep, hb], by simp [uiStep, hc]⟩

/-- Witness for C7 amended at a concrete pending modal state. -/
theorem pending_disables_all_but_max_witness :
    uiStep ⟨TxStatus.pending, false, false, false, 7, some ⟨2000000, 5000000⟩, 1000000, true⟩
        (.editAmount 42)
      = ⟨TxStatus.pending, false, false, false, 7, some ⟨2000000, 5000000⟩, 1000000, true⟩ ∧
    uiStep ⟨TxStatus.pending, false, false, false, 7, some ⟨2000000, 5000000⟩, 1000000, true⟩
        .clickApprove
      = ⟨TxStatus.pending, false, false, false, 7, some ⟨2000000, 5000000⟩, 1000000, true⟩ ∧
    uiStep ⟨TxStatus.pending, false, false, false, 7, some ⟨2000000, 5000000⟩, 1000000, true⟩
        .clickBuy
      = ⟨TxStatus.pending, false, false, false, 7, some ⟨2000000, 5000000⟩, 1000000, true⟩ ∧
    uiStep ⟨TxStatus.pending, false, false, false, 7, some ⟨2000000, 5000000⟩, 1000000, true⟩
        .clickCancel
      = ⟨TxStatus.pending, false, false, false, 7, some ⟨2000000, 5000000⟩, 1000000, true⟩ :=
  pending_disables_all_but_max
    ⟨TxStatus.pending, false, false, false, 7, some ⟨2000000, 5000000⟩, 1000000, true⟩ 42
    (Or.inl rfl)

end YamViewer
